import Mathlib

/-!
Verification of the authentication session manager and WebView
synchronization protocol of the `mywork` React Native application.

The definitions below are a shallow embedding of the TypeScript sources:
  * `src/utils/secure.ts` (embedded in `src/utils/android-settings.ts`):
    the secure credential store wrapper and the `SECURE_KEYS` record;
  * `src/hooks/useAuth.tsx`: `logout`, the startup `validating` phase of
    `initializeAuth`, `updateInitState`, `pinLogin`, `biometricLogin`;
  * `src/utils/webview-manager.ts` (`src/unnamed/part_004`): the pending
    token-broadcast queue of `WebViewManager`;
  * `src/utils/api.ts` (`src/unnamed/part_005`): `validatePin`,
    `simpleHash`, `hashPin`, `loginWithPinOnServer`;
  * `src/components/AppWebView.tsx`: `processMessageQueue` and the
    inbound message queue of `handleMessage`.

External collaborators (the HTTP auth server, the OS secure store
backend, the platform biometric prompt) are modelled as explicit
environment parameters.  Store primitives are modelled as reliable
(the `StorageUnavailable` nondeterminism of the OS keychain is out of
scope of the verified scenarios); however, the key validation performed
by the store library is modelled faithfully: `expo-secure-store`
rejects non-string keys (`ensureValidKey`), and the source's
`SECURE_KEYS` record (android-settings.ts:70-75) has **no**
`accessToken` member, so every access of `SECURE_KEYS.accessToken` in
`useAuth.tsx` denotes the JavaScript value `undefined` and every store
call made with it fails.  We model a JS key expression as
`Option String` (`none` = `undefined`).
-/

namespace MyWork

/-! ## Secure credential store (utils/secure.ts) -/

/-- A secure store: an association of string keys to string values,
first binding wins (models the OS keychain keyed by name). -/
abbrev Store := List (String × String)

def storeGet : Store → String → Option String
  | [], _ => none
  | (k, v) :: rest, key => if k = key then some v else storeGet rest key

def storeSet : Store → String → String → Store
  | [], key, val => [(key, val)]
  | (k, v) :: rest, key, val =>
    if k = key then (key, val) :: rest else (k, v) :: storeSet rest key val

def storeDel : Store → String → Store
  | [], _ => []
  | (k, v) :: rest, key =>
    if k = key then storeDel rest key else (k, v) :: storeDel rest key

/-- The `SECURE_KEYS` record of android-settings.ts:70-75.  Each member
is a JS string expression; `accessToken` is *not* declared in the
source record, so reading it yields `undefined` (`none`). -/
structure SecureKeys where
  refreshToken : Option String
  pinEnabled : Option String
  lastEmail : Option String
  deviceId : Option String
  accessToken : Option String
deriving DecidableEq

def SECURE_KEYS : SecureKeys :=
  { refreshToken := some "refreshToken"
    pinEnabled := some "pinEnabled"
    lastEmail := some "lastEmail"
    deviceId := some "deviceId"
    accessToken := none }

/-- Failure of a store primitive.  `invalidKey` is the error thrown by
the store library when the key is not a valid string
(`ensureValidKey` of expo-secure-store). -/
inductive StoreErr where
  | invalidKey
deriving DecidableEq

/-- `getSecureItem(key)` of utils/secure.ts, called with a JS key
expression that may be `undefined`. -/
def getSecureItem (key : Option String) (s : Store) : Except StoreErr (Option String) :=
  match key with
  | none => .error .invalidKey
  | some k => .ok (storeGet s k)

/-- `setSecureItem(key, value)` of utils/secure.ts. -/
def setSecureItem (key : Option String) (val : String) (s : Store) : Except StoreErr Store :=
  match key with
  | none => .error .invalidKey
  | some k => .ok (storeSet s k val)

/-- `deleteSecureItem(key)` of utils/secure.ts. -/
def deleteSecureItem (key : Option String) (s : Store) : Except StoreErr Store :=
  match key with
  | none => .error .invalidKey
  | some k => .ok (storeDel s k)

/-- The keys the application can ever write: the four members of
`SECURE_KEYS` (writes through `SECURE_KEYS.accessToken` fail, so no
other key is ever created). -/
def appSecureKeys : List String := ["refreshToken", "pinEnabled", "lastEmail", "deviceId"]

/-! ## In-memory session state (useAuth.tsx) -/

structure User where
  name : String
  email : Option String
deriving DecidableEq

/-- The in-memory session held by the auth provider: the five state
variables `user`, `token`, `accessToken`, `hasStoredSession`,
`pinEnabled` of useAuth.tsx. -/
structure AuthSession where
  user : Option User
  token : Option String
  accessToken : Option String
  hasStoredSession : Bool
  pinEnabled : Bool
deriving DecidableEq

def emptySession : AuthSession :=
  { user := none, token := none, accessToken := none
    hasStoredSession := false, pinEnabled := false }

/-! ## logout (useAuth.tsx:733-762) -/

structure LogoutResult where
  store : Store
  session : AuthSession
  serverLogoutAttempted : Bool
  serverLogoutSucceeded : Bool
  broadcastLogoutSkipRefresh : Option Bool
deriving DecidableEq

/-- `logout(skipWebViewRefresh)` of useAuth.tsx:733-762.
The `try` block reads the stored refresh token and, when present,
attempts the server logout (a server failure is caught and logged).
The `finally` block unconditionally broadcasts logout to the WebViews,
deletes the `refreshToken` and `pinEnabled` keys, and clears the five
in-memory state variables.  `serverFails` models the behaviour of the
external `/auth/logout` endpoint (throw / timeout vs. success). -/
def logout (sess : AuthSession) (s : Store) (serverFails : Bool)
    (skipWebViewRefresh : Bool) : LogoutResult :=
  let stored :=
    match getSecureItem SECURE_KEYS.refreshToken s with
    | .ok v => v
    | .error _ => none
  let attempted := stored.isSome
  let succeeded := attempted && !serverFails
  -- finally block:
  let s1 :=
    match deleteSecureItem SECURE_KEYS.refreshToken s with
    | .ok s' => s'
    | .error _ => s
  let s2 :=
    match deleteSecureItem SECURE_KEYS.pinEnabled s1 with
    | .ok s' => s'
    | .error _ => s1
  let sess' := { sess with user := none, token := none, accessToken := none
                           hasStoredSession := false, pinEnabled := false }
  { store := s2, session := sess'
    serverLogoutAttempted := attempted
    serverLogoutSucceeded := succeeded
    broadcastLogoutSkipRefresh := some skipWebViewRefresh }

/-- Unwrap a reliable store operation (the application only reaches the
`.error` case through an invalid key, in which case the surrounding
TypeScript `catch` keeps the previous store). -/
def okD (e : Except StoreErr Store) (d : Store) : Store :=
  match e with
  | .ok s => s
  | .error _ => d

/-! ## WebView registry and pending token-broadcast queue
(utils/webview-manager.ts, src/unnamed/part_004) -/

/-- A `(accessToken, deviceId, user?)` tuple queued by
`broadcastSetTokens`; `user` is an optional `{name, email}` pair. -/
structure TokenTuple where
  accessToken : String
  deviceId : String
  user : Option (String × String)
deriving DecidableEq

/-- State of the singleton `WebViewManager`.  `outbox` records, in
execution order, every `broadcastSetTokensImmediate` call (the script
injection into all registered WebViews). -/
structure WVMState where
  refsCount : Nat
  isWebViewReady : Bool
  pendingTokenBroadcasts : List TokenTuple
  outbox : List TokenTuple
deriving DecidableEq

/-- `isReady()` of webview-manager.ts: the readiness flag is set and at
least one WebView is registered. -/
def wvmIsReady (s : WVMState) : Bool :=
  s.isWebViewReady && decide (0 < s.refsCount)

/-- `broadcastSetTokensImmediate` (private): inject the token script. -/
def broadcastSetTokensImmediate (t : TokenTuple) (s : WVMState) : WVMState :=
  { s with outbox := s.outbox ++ [t] }

/-- `broadcastSetTokens`: enqueue while not ready, else deliver now. -/
def broadcastSetTokens (t : TokenTuple) (s : WVMState) : WVMState :=
  if wvmIsReady s then broadcastSetTokensImmediate t s
  else { s with pendingTokenBroadcasts := s.pendingTokenBroadcasts ++ [t] }

/-- `processPendingTokenBroadcasts` (private): deliver every queued
tuple in order, then clear the queue. -/
def processPendingTokenBroadcasts (s : WVMState) : WVMState :=
  if 0 < s.pendingTokenBroadcasts.length then
    let s' := s.pendingTokenBroadcasts.foldl (fun acc t => broadcastSetTokensImmediate t acc) s
    { s' with pendingTokenBroadcasts := [] }
  else s

/-- `setWebViewReady()`: mark ready, then drain the pending queue. -/
def setWebViewReady (s : WVMState) : WVMState :=
  processPendingTokenBroadcasts { s with isWebViewReady := true }

/-! ## Startup state machine (useAuth.tsx:230-521) -/

inductive InitStep where
  | starting
  | device
  | tokens
  | validation
  | complete
  | timeout
  | error
deriving DecidableEq

def isTerminalStep : InitStep → Bool
  | .complete => true
  | .timeout => true
  | .error => true
  | _ => false

/-- The mutable state touched by `updateInitState`
(useAuth.tsx:242-250): the `initState` record, the closure variable
`isCompleted`, the exposed `ready` flag, and a count of how many times
the completion side effects (`setReady(true)`,
`isInitializedRef.current = true`) have run. -/
structure InitMachine where
  step : InitStep
  errorMsg : Option String
  initStateReady : Bool
  isCompleted : Bool
  ready : Bool
  readyEffectRuns : Nat
deriving DecidableEq

def initMachine0 : InitMachine :=
  { step := .starting, errorMsg := none, initStateReady := false
    isCompleted := false, ready := false, readyEffectRuns := 0 }

/-- `updateInitState(step, error)` of useAuth.tsx:242-250. -/
def updateInitState (m : InitMachine) (s : InitStep) (err : Option String) : InitMachine :=
  let rdy := isTerminalStep s
  let m1 := { m with step := s, errorMsg := err, initStateReady := rdy }
  if rdy && !m.isCompleted then
    { m1 with isCompleted := true, ready := true, readyEffectRuns := m.readyEffectRuns + 1 }
  else m1

/-- The 15-second watchdog callback of useAuth.tsx:508-513. -/
def watchdogFire (m : InitMachine) : InitMachine :=
  if !m.isCompleted then updateInitState m .timeout (some "초기화 시간이 초과되었습니다.") else m

/-- An event of the startup sequence: either one of the
`updateInitState` calls made by `initializeAuth`, or the watchdog
timer firing (the race between natural completion and the watchdog is
an arbitrary interleaving of these events). -/
inductive InitEvent where
  | update (s : InitStep) (err : Option String)
  | watchdog
deriving DecidableEq

def initEventApply (m : InitMachine) : InitEvent → InitMachine
  | .update s err => updateInitState m s err
  | .watchdog => watchdogFire m

def runInit (m : InitMachine) (evs : List InitEvent) : InitMachine :=
  evs.foldl initEventApply m

/-- Whether an event forces a terminal transition: a terminal
`updateInitState` call, or the watchdog (which always passes a
terminal step). -/
def isTerminalEvent : InitEvent → Bool
  | .update s _ => isTerminalStep s
  | .watchdog => true

/-- Invariant tying the guarded completion block to its observable
effects: the `ready` flag equals `isCompleted`, and the side effects
have run exactly once iff completion was reached. -/
def InitInv (m : InitMachine) : Prop :=
  m.ready = m.isCompleted ∧ m.readyEffectRuns = (if m.isCompleted then 1 else 0)

/-! ## Startup `validating` phase (useAuth.tsx:319-472) -/

structure CheckData where
  valid : Bool
  userEmail : String
deriving DecidableEq

structure RefreshUser where
  id : String
  name : String
  role : String
deriving DecidableEq

structure RefreshData where
  accessToken : String
  refreshToken : String
  user : RefreshUser
deriving DecidableEq

/-- Behaviour of the external auth server during one startup attempt.
`checkResult = none` models `checkTokenValid` answering
`success: false` (the api.ts wrapper catches transport errors and
returns that shape); `some d` models `success: true` with data `d`.
`refreshSuccess = none` likewise models `refreshAccessToken` answering
`success: false`. -/
structure ValidateEnv where
  checkResult : Option CheckData
  refreshSuccess : Option RefreshData
deriving DecidableEq

/-- Whether the `/auth/check` response passed
`checkResult.success && checkResult.data.valid` (useAuth.tsx:335). -/
def checkValid (env : ValidateEnv) : Bool :=
  match env.checkResult with
  | some d => d.valid
  | none => false

/-- The session cleanup of useAuth.tsx:404-412 and 417-424: delete the
refresh-token key, attempt to delete the (nonexistent) access-token
key with the error swallowed by `.catch(() => {})`, then clear the
token-related state variables.  `pinEnabled` is not touched here. -/
def clearTokens (sess : AuthSession) (s : Store) : Store × AuthSession :=
  let s1 := okD (deleteSecureItem SECURE_KEYS.refreshToken s) s
  let s2 := okD (deleteSecureItem SECURE_KEYS.accessToken s1) s1
  (s2, { sess with hasStoredSession := false, accessToken := none, token := none, user := none })

/-- useAuth.tsx:330-430, the branch taken when both a stored access
token and a stored refresh token were read.  On a valid check the
session is populated and the tokens broadcast.  Otherwise a refresh is
attempted: on refresh success the write
`setSecureItem(SECURE_KEYS.accessToken, …)` at useAuth.tsx:376 throws
(the key is `undefined`), control reaches the catch at
useAuth.tsx:414, and the stored session is cleared; on refresh failure
useAuth.tsx:404-412 clears it directly. -/
def validateBranchBoth (sess : AuthSession) (s : Store) (storedAccess storedRefresh : String)
    (env : ValidateEnv) : Store × AuthSession :=
  match env.checkResult with
  | some d =>
    if d.valid then
      (s, { sess with accessToken := some storedAccess, token := some storedRefresh
                      user := some { name := d.userEmail, email := some d.userEmail } })
    else
      match env.refreshSuccess with
      | some _ => clearTokens sess s
      | none => clearTokens sess s
  | none =>
    match env.refreshSuccess with
    | some _ => clearTokens sess s
    | none => clearTokens sess s

/-- useAuth.tsx:431-471, the branch taken when only a refresh token was
read.  On refresh success the write
`setSecureItem(SECURE_KEYS.accessToken, …)` at useAuth.tsx:445 throws
(the key is `undefined`) and the catch at useAuth.tsx:469 only logs;
on refresh failure the `if` at useAuth.tsx:438 has no else-branch.  In
both cases neither the store nor the session is modified. -/
def validateBranchRefreshOnly (sess : AuthSession) (s : Store) (storedRefresh : String)
    (env : ValidateEnv) : Store × AuthSession :=
  match env.refreshSuccess with
  | some _ => (s, sess)
  | none => (s, sess)

/-- The `tokens` + `validating` phases of `initializeAuth`
(useAuth.tsx:268-472): read the persisted values (the access-token
read at useAuth.tsx:289 always yields `null` because
`SECURE_KEYS.accessToken` is `undefined` and the store call fails into
`.catch(() => null)`), set `hasStoredSession` and `pinEnabled`, then
dispatch on which tokens are present. -/
def validatingPhase (sess : AuthSession) (s : Store) (env : ValidateEnv) : Store × AuthSession :=
  let storedRefresh :=
    match getSecureItem SECURE_KEYS.refreshToken s with
    | .ok v => v
    | .error _ => none
  let storedAccess :=
    match getSecureItem SECURE_KEYS.accessToken s with
    | .ok v => v
    | .error _ => none
  let pinFlag := storeGet s "pinEnabled" == some "1"
  let sess0 := { sess with hasStoredSession := storedRefresh.isSome, pinEnabled := pinFlag }
  match storedAccess, storedRefresh with
  | some a, some r => validateBranchBoth sess0 s a r env
  | none, some r => validateBranchRefreshOnly sess0 s r env
  | _, _ => (s, sess0)

/-! ## PIN hashing and PIN login (utils/api.ts, src/unnamed/part_005) -/

/-- JavaScript `ToInt32` coercion (the `hash & hash` and `<<`
operations of `simpleHash`). -/
def jsToInt32 (n : Int) : Int := (n + 2 ^ 31) % 2 ^ 32 - 2 ^ 31

/-- One iteration of the `simpleHash` loop:
`hash = ((hash << 5) - hash) + char; hash = hash & hash;`. -/
def simpleHashStep (h : Int) (c : Nat) : Int :=
  jsToInt32 (jsToInt32 (h * 32) - h + (c : Int))

/-- `'0'`-pad on the left to at least eight characters (the
`while (result.length < 8) result = '0' + result;` loop). -/
def padZero8 (s : String) : String :=
  String.mk (List.replicate (8 - s.length) '0') ++ s

/-- `simpleHash(str)` of api.ts: the non-cryptographic fallback
transform.  `Math.abs(hash).toString(16)` is lowercase hexadecimal of
the absolute value. -/
def simpleHash (str : String) : String :=
  if str.length = 0 then "0"
  else
    let h := str.data.foldl (fun h c => simpleHashStep h c.toNat) 0
    "simple_" ++ padZero8 (String.mk (Nat.toDigits 16 h.natAbs)) ++ "_" ++ toString str.length

/-- The value placed in the `pin` field of a request.  `sha256 pin`
stands for the result of
`Crypto.digestStringAsync(CryptoDigestAlgorithm.SHA256, pin)`; `weak`
is any other (non-cryptographic-digest) string. -/
inductive PinWire where
  | sha256 (pin : String)
  | weak (value : String)
deriving DecidableEq

/-- Availability of the `expo-crypto` digest capability:
`digestAvailable` is the guard
`Crypto && typeof Crypto.digestStringAsync === 'function' &&
Crypto.CryptoDigestAlgorithm?.SHA256`; `digestThrows` models
`digestStringAsync` rejecting at runtime. -/
structure CryptoEnv where
  digestAvailable : Bool
  digestThrows : Bool
deriving DecidableEq

/-- `hashPin(pin)` of api.ts: SHA-256 when the crypto capability works,
otherwise the `simpleHash` fallback.  It never throws, so the callers'
further fallback `hashedPin = pin` is dead code. -/
def hashPin (pin : String) (env : CryptoEnv) : PinWire :=
  if !env.digestAvailable then .weak (simpleHash pin)
  else if env.digestThrows then .weak (simpleHash pin)
  else .sha256 pin

structure PinValidation where
  isValid : Bool
  message : Option String
deriving DecidableEq

/-- `validatePin(pin)` of api.ts: 4-8 characters (the `!pin` emptiness
test is subsumed by the length test) and, via `/^\d+$/`, at least one
character with every character an ASCII digit. -/
def validatePin (pin : String) : PinValidation :=
  if pin = "" ∨ pin.length < 4 ∨ pin.length > 8 then
    { isValid := false, message := some "PIN은 4-8자리여야 합니다." }
  else if ¬ (0 < pin.length ∧ pin.data.all Char.isDigit = true) then
    { isValid := false, message := some "PIN은 숫자만 허용됩니다." }
  else
    { isValid := true, message := none }

/-- The body of the POST to `/auth/pin-login`. -/
structure PinLoginRequest where
  deviceId : String
  pin : PinWire
  platform : Option String
deriving DecidableEq

/-- `loginWithPinOnServer(deviceId, pin, platform)` of api.ts up to the
point where the request is handed to `postJson`: validate, hash, send.
A validation failure throws (`Except.error` carries the message). -/
def loginWithPinOnServer (deviceId : String) (pin : String) (platform : Option String)
    (env : CryptoEnv) : Except String PinLoginRequest :=
  let validation := validatePin pin
  if validation.isValid then
    let hashedPin := hashPin pin env
    .ok { deviceId := deviceId, pin := hashedPin, platform := platform }
  else
    .error (validation.message.getD "")

/-- Success payload of the login endpoints. -/
structure LoginData where
  accessToken : String
  refreshToken : String
  expiresAt : Nat
  user : Option User
deriving DecidableEq

structure PinLoginOutcome where
  success : Bool
  error : Option String
  requestsSent : List PinLoginRequest
  store : Store
deriving DecidableEq

/-- `pinLogin(pin, deviceId, platform)` of useAuth.tsx:558-602.
`serverResponse` models the `/auth/pin-login` endpoint (an
`Except.error` is an `AuthApiError` / transport error thrown by
`postJson`).  Every throw is caught at useAuth.tsx:595 and converted
into a `{success: false, error}` result. -/
def pinLogin (sess : AuthSession) (s : Store) (pin : String) (deviceId : Option String)
    (platform : Option String) (env : CryptoEnv)
    (serverResponse : Except String LoginData) : PinLoginOutcome × AuthSession :=
  match loginWithPinOnServer (deviceId.getD "unknown-device") pin platform env with
  | .error msg =>
    ({ success := false, error := some msg, requestsSent := [], store := s }, sess)
  | .ok req =>
    match serverResponse with
    | .error msg =>
      ({ success := false, error := some msg, requestsSent := [req], store := s }, sess)
    | .ok data =>
      let s1 := okD (setSecureItem SECURE_KEYS.refreshToken data.refreshToken s) s
      let s2 :=
        match data.user with
        | some u =>
          match u.email with
          | some em => okD (setSecureItem SECURE_KEYS.lastEmail em s1) s1
          | none => s1
        | none => s1
      let sess' := { sess with token := some data.refreshToken
                               accessToken := some data.accessToken
                               user := data.user, hasStoredSession := true }
      ({ success := true, error := none, requestsSent := [req], store := s2 }, sess')

/-! ## Biometric login (useAuth.tsx:608-698) -/

inductive BioStep where
  | optionsLookup
  | biometricPrompt
  | serverBiometricLogin
deriving DecidableEq

structure LoginOpts where
  hasPin : Bool
  hasPasskey : Bool
deriving DecidableEq

/-- External behaviour during one `biometricLogin()` run:
`optionsResult` models `fetchLoginOptionsWithDeviceId` (error =
thrown `AuthApiError`), `promptSucceeds` the
`LocalAuthentication.authenticateAsync` outcome, `serverResponse` the
`/auth/biometric-login` endpoint. -/
structure BioEnv where
  optionsResult : Except String LoginOpts
  promptSucceeds : Bool
  serverResponse : Except String LoginData

structure BioOutcome where
  success : Bool
  error : Option String
  trace : List BioStep
  store : Store
deriving DecidableEq

/-- `biometricLogin()` of useAuth.tsx:608-698.  `trace` records the
externally visible steps in execution order.  The `Platform.OS` guard
at useAuth.tsx:634 is always satisfied in a React Native process. -/
def biometricLogin (sess : AuthSession) (s : Store) (env : BioEnv) : BioOutcome × AuthSession :=
  match env.optionsResult with
  | .error _ =>
    ({ success := false
       error := some "디바이스 정보를 확인할 수 없습니다.\n먼저 일반 로그인 후 생체인증을 설정해주세요."
       trace := [.optionsLookup], store := s }, sess)
  | .ok opts =>
    if !opts.hasPasskey then
      ({ success := false
         error := some "생체인증이 등록되지 않았습니다.\n마이페이지에서 생체인증을 먼저 설정해주세요."
         trace := [.optionsLookup], store := s }, sess)
    else if !env.promptSucceeds then
      ({ success := false
         error := some "생체인증이 취소되었거나 실패했습니다."
         trace := [.optionsLookup, .biometricPrompt], store := s }, sess)
    else
      match env.serverResponse with
      | .error msg =>
        ({ success := false, error := some msg
           trace := [.optionsLookup, .biometricPrompt, .serverBiometricLogin], store := s }, sess)
      | .ok data =>
        let s1 := okD (setSecureItem SECURE_KEYS.refreshToken data.refreshToken s) s
        let s2 :=
          match data.user with
          | some u =>
            match u.email with
            | some em => okD (setSecureItem SECURE_KEYS.lastEmail em s1) s1
            | none => s1
          | none => s1
        ({ success := true, error := none
           trace := [.optionsLookup, .biometricPrompt, .serverBiometricLogin], store := s2 },
         { sess with token := some data.refreshToken, accessToken := some data.accessToken
                     user := data.user, hasStoredSession := true })

/-! ## Inbound message batch processing (AppWebView.tsx:487-530) -/

inductive MsgType where
  | loginSuccess
  | pinLoginSuccess
  | biometricLoginSuccess
  | loginFailure
  | pinLoginFailure
  | biometricLoginFailure
  | logout
  | getDeviceInfo
  | pinLoginRequest
  | biometricLoginRequest
  | securitySetupNeeded
  | biometricSetupComplete
  | other
deriving DecidableEq

/-- An inbound bridge message as inspected by `processMessageQueue`:
its `type` discriminant and the optional `success` and `reason`
fields. -/
structure WVMsg where
  type : MsgType
  success : Option Bool
  reason : Option String
deriving DecidableEq

/-- `msg.success === false` for one of the three failure types
(AppWebView.tsx:491-495). -/
def isLoginFailureMsg (m : WVMsg) : Bool :=
  (m.type == .loginFailure || m.type == .pinLoginFailure || m.type == .biometricLoginFailure)
    && m.success == some false

structure BatchResult where
  processed : List WVMsg
  logoutInvoked : Bool
  reloadScheduled : Bool
deriving DecidableEq

/-- `processMessageQueue(messages)` of AppWebView.tsx:487-530.
`shouldSkipRefresh` is the hard-coded `true` of AppWebView.tsx:498
(the expression `hasLoginFailure || hasDeviceInfoRequest` is present
in the source but commented out).  When the batch contains a login
failure, `logout` messages are filtered out before processing
(AppWebView.tsx:503-511).  `logoutInvoked` records whether processing
reaches the `logout(false)` call of `handleLogoutRequest`
(AppWebView.tsx:437-453), which itself skips messages whose `reason`
is `'loginFailure'`.  The reload is scheduled only when
`shouldSkipRefresh` is false (AppWebView.tsx:519-526). -/
def processMessageQueue (messages : List WVMsg) : BatchResult :=
  let hasLoginFailure := messages.any isLoginFailureMsg
  let _hasDeviceInfoRequest := messages.any (fun m => m.type == .getDeviceInfo)
  let shouldSkipRefresh := true
  let filteredMessages :=
    if hasLoginFailure then messages.filter (fun m => !(m.type == .logout))
    else messages
  let logoutInvoked :=
    filteredMessages.any (fun m => m.type == .logout && !(m.reason == some "loginFailure"))
  { processed := filteredMessages
    logoutInvoked := logoutInvoked
    reloadScheduled := !shouldSkipRefresh }

/-! ## Inbound message queue (AppWebView.tsx:609-635)

`handleMessage` appends the parsed message to the `messageQueue` state
and, when `isProcessingQueue` is false, sets the flag and schedules a
50 ms timer whose callback processes the queue *as captured at
scheduling time* (`newQueue` is closed over), then runs
`setMessageQueue([])` and `setIsProcessingQueue(false)`.  We model the
timer callback as two transitions: `mqBeginFlush` (the callback starts
draining the captured batch) and `mqEndFlush` (the callback finishes:
the trace extends by the batch, the queue is cleared, the flag reset).
A message arriving between them is a message arriving while the batch
is being processed.  Messages are identified by distinct numbers. -/

structure MsgQueueState where
  messageQueue : List Nat
  isProcessingQueue : Bool
  scheduledBatch : Option (List Nat)
  drainingBatch : Option (List Nat)
  processedTrace : List Nat
deriving DecidableEq

def mqInit : MsgQueueState :=
  { messageQueue := [], isProcessingQueue := false
    scheduledBatch := none, drainingBatch := none, processedTrace := [] }

/-- `handleMessage` (AppWebView.tsx:611-635): append to the queue;
schedule a flush of the just-captured queue only if no flush is
pending. -/
def mqArrive (m : Nat) (s : MsgQueueState) : MsgQueueState :=
  let newQueue := s.messageQueue ++ [m]
  if s.isProcessingQueue then { s with messageQueue := newQueue }
  else { s with messageQueue := newQueue, isProcessingQueue := true
                scheduledBatch := some newQueue }

/-- The scheduled timer callback enters `processMessageQueue` with the
captured batch. -/
def mqBeginFlush (s : MsgQueueState) : MsgQueueState :=
  match s.scheduledBatch with
  | some b => { s with scheduledBatch := none, drainingBatch := some b }
  | none => s

/-- The timer callback returns: the batch members have been processed,
then `setMessageQueue([])` and `setIsProcessingQueue(false)` run
(AppWebView.tsx:628-629), discarding whatever arrived meanwhile. -/
def mqEndFlush (s : MsgQueueState) : MsgQueueState :=
  match s.drainingBatch with
  | some b => { s with drainingBatch := none
                       processedTrace := s.processedTrace ++ b
                       messageQueue := [], isProcessingQueue := false }
  | none => s

inductive MQEvent where
  | arrive (m : Nat)
  | beginFlush
  | endFlush
deriving DecidableEq

def mqStep (s : MsgQueueState) : MQEvent → MsgQueueState
  | .arrive m => mqArrive m s
  | .beginFlush => mqBeginFlush s
  | .endFlush => mqEndFlush s

def mqRun (s : MsgQueueState) (evs : List MQEvent) : MsgQueueState :=
  evs.foldl mqStep s

/-- Message `m` is present nowhere in the queue machinery. -/
def mqAbsent (m : Nat) (s : MsgQueueState) : Prop :=
  m ∉ s.messageQueue ∧ m ∉ s.scheduledBatch.getD [] ∧
    m ∉ s.drainingBatch.getD [] ∧ m ∉ s.processedTrace

instance (m : Nat) (s : MsgQueueState) : Decidable (mqAbsent m s) := by
  unfold mqAbsent; infer_instance

/-! ## Store lemmas -/

theorem storeGet_storeDel (s : Store) (k key : String) :
    storeGet (storeDel s k) key = if key = k then none else storeGet s key := by
  induction s with
  | nil => simp [storeDel, storeGet]
  | cons p rest ih =>
    obtain ⟨pk, pv⟩ := p
    simp only [storeDel, storeGet]
    by_cases hpk : pk = k <;> by_cases hkey : pk = key <;>
      simp_all [storeGet, ih]

theorem storeGet_eq_none_of_keys (s : Store) (L : List String) (key : String)
    (hs : ∀ p ∈ s, p.1 ∈ L) (hk : key ∉ L) : storeGet s key = none := by
  induction s with
  | nil => rfl
  | cons p rest ih =>
    obtain ⟨pk, pv⟩ := p
    have hpk : pk ∈ L := hs (pk, pv) (List.mem_cons_self _ _)
    have hne : pk ≠ key := fun h => hk (h ▸ hpk)
    simp only [storeGet, if_neg hne]
    exact ih (fun q hq => hs q (List.mem_cons_of_mem _ hq))

/-! ## C1 / C10: logout -/

/-- C1: for every call to the Session Manager's logout operation, even
when the server-side logout call throws or times out
(`serverFails = true`), afterwards the persisted refresh token, the
persisted access token, and the persisted PIN-enabled flag are all
absent from the secure store, and the in-memory Session (user, token,
accessToken, hasStoredSession, pinEnabled) is empty.  The hypothesis
restricts the initial store to keys the application can write, which
holds of every reachable store. -/
theorem c1_logout_clears_local_state (sess : AuthSession) (s : Store)
    (serverFails skipWebViewRefresh : Bool)
    (hkeys : ∀ p ∈ s, p.1 ∈ appSecureKeys) :
    let r := logout sess s serverFails skipWebViewRefresh
    storeGet r.store "refreshToken" = none ∧
    storeGet r.store "pinEnabled" = none ∧
    storeGet r.store "accessToken" = none ∧
    r.session = emptySession := by
  intro r
  have haccess : storeGet s "accessToken" = none :=
    storeGet_eq_none_of_keys s appSecureKeys "accessToken" hkeys (by decide)
  have hstore : r.store = storeDel (storeDel s "refreshToken") "pinEnabled" := rfl
  refine ⟨?_, ?_, ?_, ?_⟩
  · rw [hstore, storeGet_storeDel, if_neg (by decide), storeGet_storeDel, if_pos rfl]
  · rw [hstore, storeGet_storeDel, if_pos rfl]
  · rw [hstore, storeGet_storeDel, if_neg (by decide), storeGet_storeDel,
      if_neg (by decide), haccess]
  · cases sess
    rfl

/-- Witness for C1 at a concrete logged-in state with the server
logout failing. -/
theorem c1_witness :
    let sess : AuthSession :=
      { user := some { name := "A", email := some "a@b.com" }
        token := some "RT1", accessToken := some "AT1"
        hasStoredSession := true, pinEnabled := true }
    let s : Store :=
      [("refreshToken", "RT1"), ("pinEnabled", "1"),
       ("lastEmail", "a@b.com"), ("deviceId", "dev-1")]
    let r := logout sess s true false
    storeGet r.store "refreshToken" = none ∧
    storeGet r.store "pinEnabled" = none ∧
    storeGet r.store "accessToken" = none ∧
    r.session = emptySession :=
  c1_logout_clears_local_state _ _ true false (by decide)

/-- C10: logout leaves the persisted last-used-email and device-id
keys unchanged; it deletes only the refresh-token and pin-enabled
keys, and every other key is untouched. -/
theorem c10_logout_preserves_email_and_device (sess : AuthSession) (s : Store)
    (serverFails skipWebViewRefresh : Bool) (k : String)
    (hk1 : k ≠ "refreshToken") (hk2 : k ≠ "pinEnabled") :
    let r := logout sess s serverFails skipWebViewRefresh
    storeGet r.store "lastEmail" = storeGet s "lastEmail" ∧
    storeGet r.store "deviceId" = storeGet s "deviceId" ∧
    storeGet r.store k = storeGet s k ∧
    storeGet r.store "refreshToken" = none ∧
    storeGet r.store "pinEnabled" = none := by
  intro r
  have hstore : r.store = storeDel (storeDel s "refreshToken") "pinEnabled" := rfl
  refine ⟨?_, ?_, ?_, ?_, ?_⟩
  · rw [hstore, storeGet_storeDel, if_neg (by decide), storeGet_storeDel, if_neg (by decide)]
  · rw [hstore, storeGet_storeDel, if_neg (by decide), storeGet_storeDel, if_neg (by decide)]
  · rw [hstore, storeGet_storeDel, if_neg hk2, storeGet_storeDel, if_neg hk1]
  · rw [hstore, storeGet_storeDel, if_neg (by decide), storeGet_storeDel, if_pos rfl]
  · rw [hstore, storeGet_storeDel, if_pos rfl]

/-- Witness for C10 at a concrete store: the remembered email and the
device id survive a logout whose server call fails. -/
theorem c10_witness :
    let s : Store :=
      [("refreshToken", "RT1"), ("pinEnabled", "1"),
       ("lastEmail", "a@b.com"), ("deviceId", "dev-1")]
    let r := logout emptySession s true false
    storeGet r.store "lastEmail" = storeGet s "lastEmail" ∧
    storeGet r.store "deviceId" = storeGet s "deviceId" ∧
    storeGet r.store "lastEmail" = storeGet s "lastEmail" ∧
    storeGet r.store "refreshToken" = none ∧
    storeGet r.store "pinEnabled" = none :=
  c10_logout_preserves_email_and_device emptySession _ true false "lastEmail"
    (by decide) (by decide)

/-! ## C5: FIFO pending token broadcast -/

theorem foldl_broadcastImmediate (l : List TokenTuple) (st : WVMState) :
    l.foldl (fun acc t => broadcastSetTokensImmediate t acc) st
      = { st with outbox := st.outbox ++ l } := by
  induction l generalizing st with
  | nil => simp
  | cons a l ih =>
    rw [List.foldl_cons, ih]
    simp [broadcastSetTokensImmediate]

theorem broadcastSetTokens_not_ready (t : TokenTuple) (s : WVMState)
    (h : wvmIsReady s = false) :
    broadcastSetTokens t s
      = { s with pendingTokenBroadcasts := s.pendingTokenBroadcasts ++ [t] } := by
  simp [broadcastSetTokens, h]

theorem wvmIsReady_broadcast (t : TokenTuple) (s : WVMState) :
    wvmIsReady (broadcastSetTokens t s) = wvmIsReady s := by
  unfold broadcastSetTokens broadcastSetTokensImmediate wvmIsReady
  split <;> rfl

/-- C5: tuples A, B, C enqueued via `broadcastSetTokens` while the
bridge is not ready are delivered by `setWebViewReady()` in FIFO order
A, B, C, each exactly once, leaving the pending queue empty; a tuple D
enqueued or broadcast after the drain extends the delivery log without
redelivering A, B, or C, and a further drain delivers exactly D. -/
theorem c5_pending_broadcast_fifo (s : WVMState) (A B C D : TokenTuple)
    (hready : wvmIsReady s = false) (hpend : s.pendingTokenBroadcasts = []) :
    let s3 := broadcastSetTokens C (broadcastSetTokens B (broadcastSetTokens A s))
    let s4 := setWebViewReady s3
    s4.outbox = s.outbox ++ [A, B, C] ∧
    s4.pendingTokenBroadcasts = [] ∧
    ((broadcastSetTokens D s4).outbox = s.outbox ++ [A, B, C] ∨
      (broadcastSetTokens D s4).outbox = s.outbox ++ [A, B, C, D]) ∧
    (setWebViewReady (broadcastSetTokens D s4)).outbox = s.outbox ++ [A, B, C, D] := by
  intro s3 s4
  obtain ⟨rc, rdy, pend, out⟩ := s
  simp only [wvmIsReady] at hready
  simp only at hpend
  subst hpend
  have e3 : s3 = ⟨rc, rdy, [A, B, C], out⟩ := by
    show broadcastSetTokens C (broadcastSetTokens B (broadcastSetTokens A ⟨rc, rdy, [], out⟩)) = _
    simp [broadcastSetTokens, wvmIsReady, hready, broadcastSetTokensImmediate]
  have e4 : s4 = ⟨rc, true, [], out ++ [A, B, C]⟩ := by
    show setWebViewReady s3 = _
    rw [e3]
    simp [setWebViewReady, processPendingTokenBroadcasts, broadcastSetTokensImmediate]
  refine ⟨by rw [e4], by rw [e4], ?_, ?_⟩ <;> rw [e4] <;> by_cases hrc : 0 < rc
  · right
    simp [broadcastSetTokens, wvmIsReady, hrc, broadcastSetTokensImmediate]
  · left
    simp [broadcastSetTokens, wvmIsReady, hrc]
  · simp [broadcastSetTokens, wvmIsReady, hrc, broadcastSetTokensImmediate,
      setWebViewReady, processPendingTokenBroadcasts]
  · simp [broadcastSetTokens, wvmIsReady, hrc, broadcastSetTokensImmediate,
      setWebViewReady, processPendingTokenBroadcasts, foldl_broadcastImmediate]

/-- Witness for C5: a fresh not-ready manager with one registered
WebView, four concrete tuples. -/
theorem c5_witness :
    let s : WVMState :=
      { refsCount := 1, isWebViewReady := false, pendingTokenBroadcasts := [], outbox := [] }
    let A : TokenTuple := { accessToken := "AT-A", deviceId := "dev", user := none }
    let B : TokenTuple := { accessToken := "AT-B", deviceId := "dev", user := none }
    let C : TokenTuple := { accessToken := "AT-C", deviceId := "dev", user := none }
    let D : TokenTuple := { accessToken := "AT-D", deviceId := "dev", user := none }
    let s3 := broadcastSetTokens C (broadcastSetTokens B (broadcastSetTokens A s))
    let s4 := setWebViewReady s3
    s4.outbox = s.outbox ++ [A, B, C] ∧
    s4.pendingTokenBroadcasts = [] ∧
    ((broadcastSetTokens D s4).outbox = s.outbox ++ [A, B, C] ∨
      (broadcastSetTokens D s4).outbox = s.outbox ++ [A, B, C, D]) ∧
    (setWebViewReady (broadcastSetTokens D s4)).outbox = s.outbox ++ [A, B, C, D] :=
  c5_pending_broadcast_fifo _ _ _ _ _ (by decide) (by decide)

/-! ## C6: idempotent terminal transition -/

theorem initEventApply_isCompleted (m : InitMachine) (e : InitEvent) :
    (initEventApply m e).isCompleted = (m.isCompleted || isTerminalEvent e) := by
  cases e with
  | update s err =>
    simp only [initEventApply, updateInitState, isTerminalEvent]
    cases hs : isTerminalStep s <;> cases hm : m.isCompleted <;> simp [hs, hm]
  | watchdog =>
    simp only [initEventApply, watchdogFire, updateInitState, isTerminalEvent]
    cases hm : m.isCompleted <;> simp [hm, isTerminalStep]

theorem initEventApply_inv (m : InitMachine) (e : InitEvent) (h : InitInv m) :
    InitInv (initEventApply m e) := by
  obtain ⟨h1, h2⟩ := h
  cases e with
  | update s err =>
    simp only [InitInv, initEventApply, updateInitState]
    cases hs : isTerminalStep s <;> cases hm : m.isCompleted <;>
      simp_all [hs, hm]
  | watchdog =>
    simp only [InitInv, initEventApply, watchdogFire, updateInitState]
    cases hm : m.isCompleted <;> simp_all [hm, isTerminalStep]

theorem runInit_isCompleted (evs : List InitEvent) :
    ∀ m : InitMachine, (runInit m evs).isCompleted = (m.isCompleted || evs.any isTerminalEvent) := by
  induction evs with
  | nil => intro m; simp [runInit]
  | cons e evs ih =>
    intro m
    show (runInit (initEventApply m e) evs).isCompleted = _
    rw [ih, initEventApply_isCompleted]
    simp [Bool.or_assoc]

theorem runInit_inv (evs : List InitEvent) :
    ∀ m : InitMachine, InitInv m → InitInv (runInit m evs) := by
  induction evs with
  | nil => intro m h; exact h
  | cons e evs ih =>
    intro m h
    exact ih _ (initEventApply_inv m e h)

theorem runInit_append (m : InitMachine) (evs1 evs2 : List InitEvent) :
    runInit m (evs1 ++ evs2) = runInit (runInit m evs1) evs2 :=
  List.foldl_append _ _ _ _

/-- C6: over any interleaving of the `updateInitState` calls of
`initializeAuth` with the 15-second watchdog, the ready side effects
(`setReady(true)`, `isInitializedRef.current = true`) run exactly once
as soon as some terminal transition (complete, timeout, or error)
occurs — a second terminal transition, e.g. natural completion racing
the watchdog, does not re-run them — and the `ready` flag, once true,
never transitions back to false during startup. -/
theorem c6_terminal_ready_exactly_once (evs1 evs2 : List InitEvent) :
    ((runInit initMachine0 evs1).readyEffectRuns
        = if evs1.any isTerminalEvent then 1 else 0) ∧
    ((runInit initMachine0 evs1).ready = evs1.any isTerminalEvent) ∧
    ((runInit initMachine0 evs1).ready = true →
      (runInit initMachine0 (evs1 ++ evs2)).ready = true) := by
  have h0 : InitInv initMachine0 := by constructor <;> rfl
  have hinv := runInit_inv evs1 initMachine0 h0
  have hc := runInit_isCompleted evs1 initMachine0
  obtain ⟨h1, h2⟩ := hinv
  have hready : (runInit initMachine0 evs1).ready = evs1.any isTerminalEvent := by
    rw [h1, hc]; rfl
  refine ⟨?_, hready, ?_⟩
  · rw [h2, hc]; rfl
  · intro h
    have hinv2 := runInit_inv evs2 _ (runInit_inv evs1 initMachine0 h0)
    rw [runInit_append, (runInit_inv evs2 _ ⟨h1, h2⟩).1,
      runInit_isCompleted evs2, hc]
    rw [hready] at h
    simp [h]

/-- Witness for C6: natural completion followed by the watchdog firing
(the race's second terminal attempt) runs the ready side effects once
and leaves `ready` true. -/
theorem c6_witness :
    (runInit initMachine0 [InitEvent.update .complete none]).ready = true ∧
    (runInit initMachine0
        ([InitEvent.update .complete none] ++ [InitEvent.watchdog])).ready = true ∧
    (runInit initMachine0
        ([InitEvent.update .complete none] ++ [InitEvent.watchdog])).readyEffectRuns = 1 :=
  ⟨by decide,
   (c6_terminal_ready_exactly_once [InitEvent.update .complete none]
      [InitEvent.watchdog]).2.2 (by decide),
   by decide⟩

/-! ## C4: cleanup on refresh failure during `validating` -/

/-- C4 counterexample: with only a refresh token persisted and the
refresh call failing during the startup `validating` phase, the claim
says both persisted token keys are deleted and the Session cleared;
instead the persisted refresh token survives and `hasStoredSession`
stays true (useAuth.tsx:438 has no failure branch). -/
theorem c4_counterexample :
    let s : Store := [("refreshToken", "RT1")]
    let env : ValidateEnv := { checkResult := none, refreshSuccess := none }
    let r := validatingPhase emptySession s env
    storeGet r.1 "refreshToken" = some "RT1" ∧
    r.2.hasStoredSession = true ∧
    r.2 ≠ emptySession := by
  decide

/-- C4 amended: during the startup `validating` phase, when
`refreshAccessToken` fails, the branch for a stored access and refresh
token (useAuth.tsx:400-425) deletes the persisted refresh-token key
(the access-token delete is a no-op because no access-token key
exists) and clears the token-related Session fields; but the branch
for a refresh token alone (useAuth.tsx:431-471) performs no cleanup:
the persisted store and the in-memory session are returned
unchanged. -/
theorem c4_amended_refresh_failure_cleanup (sess : AuthSession) (s : Store)
    (a r : String) (env : ValidateEnv)
    (hchk : checkValid env = false) (hfail : env.refreshSuccess = none) :
    (storeGet (validateBranchBoth sess s a r env).1 "refreshToken" = none ∧
     (validateBranchBoth sess s a r env).2.user = none ∧
     (validateBranchBoth sess s a r env).2.token = none ∧
     (validateBranchBoth sess s a r env).2.accessToken = none ∧
     (validateBranchBoth sess s a r env).2.hasStoredSession = false) ∧
    validateBranchRefreshOnly sess s r env = (s, sess) := by
  have hclear : clearTokens sess s
      = (storeDel s "refreshToken",
         { sess with hasStoredSession := false, accessToken := none
                     token := none, user := none }) := rfl
  have hb : validateBranchBoth sess s a r env = clearTokens sess s := by
    unfold validateBranchBoth
    cases hcr : env.checkResult with
    | none => rw [hfail]
    | some d =>
      have hd : d.valid = false := by simpa [checkValid, hcr] using hchk
      simp [hd, hfail]
  constructor
  · rw [hb, hclear]
    exact ⟨by rw [storeGet_storeDel, if_pos rfl], rfl, rfl, rfl, rfl⟩
  · unfold validateBranchRefreshOnly
    rw [hfail]

/-- Witness for C4's amended statement at concrete inputs. -/
theorem c4_amended_witness :
    let sess : AuthSession :=
      { user := none, token := none, accessToken := none
        hasStoredSession := true, pinEnabled := false }
    let s : Store := [("refreshToken", "RT1")]
    let env : ValidateEnv := { checkResult := some { valid := false, userEmail := "a@b.com" }
                               refreshSuccess := none }
    (storeGet (validateBranchBoth sess s "AT1" "RT1" env).1 "refreshToken" = none ∧
     (validateBranchBoth sess s "AT1" "RT1" env).2.user = none ∧
     (validateBranchBoth sess s "AT1" "RT1" env).2.token = none ∧
     (validateBranchBoth sess s "AT1" "RT1" env).2.accessToken = none ∧
     (validateBranchBoth sess s "AT1" "RT1" env).2.hasStoredSession = false) ∧
    validateBranchRefreshOnly sess s "RT1" env = (s, sess) :=
  c4_amended_refresh_failure_cleanup _ _ "AT1" "RT1" _ (by decide) (by decide)

/-! ## C2: PIN hashing before transmission -/

set_option maxRecDepth 4096

/-- C2: the claim that the `pin` field transmitted by the PIN login
operation is always the SHA-256 digest is false: when the crypto
capability is unavailable, `hashPin` falls back to the
non-cryptographic `simpleHash`, and for the validated PIN `"123456"`
the request carries the reversible string `"simple_56760663_6"`
instead of a SHA-256 digest; with a working crypto capability the same
call does send the SHA-256 digest. -/
theorem c2_pin_sent_unhashed_on_crypto_fallback :
    (loginWithPinOnServer "dev-1" "123456" none
        { digestAvailable := false, digestThrows := false }).toOption
      = some { deviceId := "dev-1", pin := .weak "simple_56760663_6", platform := none } ∧
    PinWire.weak "simple_56760663_6" ≠ PinWire.sha256 "123456" ∧
    (loginWithPinOnServer "dev-1" "123456" none
        { digestAvailable := true, digestThrows := false }).toOption
      = some { deviceId := "dev-1", pin := .sha256 "123456", platform := none } := by
  refine ⟨by decide, by decide, by decide⟩

/-! ## C8: client-side PIN validation -/

theorem validatePin_isValid_iff (pin : String) :
    (validatePin pin).isValid = true ↔
      4 ≤ pin.length ∧ pin.length ≤ 8 ∧ pin.data.all Char.isDigit = true := by
  unfold validatePin
  by_cases h1 : pin = "" ∨ pin.length < 4 ∨ pin.length > 8
  · rw [if_pos h1]
    simp only [Bool.false_eq_true, false_iff]
    rintro ⟨h4, h8, -⟩
    rcases h1 with he | hl | hg
    · rw [he] at h4
      simp at h4
    · omega
    · omega
  · rw [if_neg h1]
    push_neg at h1
    obtain ⟨-, hl, hg⟩ := h1
    by_cases h2 : 0 < pin.length ∧ pin.data.all Char.isDigit = true
    · rw [if_neg (by simpa using h2)]
      simp only [true_iff]
      exact ⟨by omega, by omega, h2.2⟩
    · rw [if_pos h2]
      simp only [Bool.false_eq_true, false_iff]
      rintro ⟨h4, h8, hd⟩
      exact h2 ⟨by omega, hd⟩

/-- C8: a PIN whose shape is invalid (shorter than 4, longer than 8,
or containing a non-digit) makes `pinLogin` fail client-side: it
returns a `{success: false, error}` result without any network call;
a 4-8 digit PIN proceeds to hashing and exactly one network login
call carrying the hashed PIN, whatever the server then answers. -/
theorem c8_pin_shape_gates_network (sess : AuthSession) (s : Store) (pin : String)
    (deviceId platform : Option String) (env : CryptoEnv)
    (serverResponse : Except String LoginData) :
    (¬ (4 ≤ pin.length ∧ pin.length ≤ 8 ∧ pin.data.all Char.isDigit = true) →
      (pinLogin sess s pin deviceId platform env serverResponse).1.success = false ∧
      (pinLogin sess s pin deviceId platform env serverResponse).1.error.isSome = true ∧
      (pinLogin sess s pin deviceId platform env serverResponse).1.requestsSent = []) ∧
    ((4 ≤ pin.length ∧ pin.length ≤ 8 ∧ pin.data.all Char.isDigit = true) →
      (pinLogin sess s pin deviceId platform env serverResponse).1.requestsSent
        = [{ deviceId := deviceId.getD "unknown-device"
             pin := hashPin pin env, platform := platform }]) := by
  constructor
  · intro hshape
    have hv : (validatePin pin).isValid = false := by
      rcases hb : (validatePin pin).isValid with _ | _
      · rfl
      · exact absurd ((validatePin_isValid_iff pin).mp hb) hshape
    simp [pinLogin, loginWithPinOnServer, hv]
  · intro hshape
    have hv : (validatePin pin).isValid = true := (validatePin_isValid_iff pin).mpr hshape
    cases serverResponse <;> simp [pinLogin, loginWithPinOnServer, hv]

/-- Witness for C8: `"123"` and `"abcdef"` fail client-side with no
request sent; `"123456"` sends exactly one hashed login request. -/
theorem c8_witness :
    ((pinLogin emptySession [] "123" (some "dev-1") none
        { digestAvailable := true, digestThrows := false } (.error "x")).1.success = false ∧
     (pinLogin emptySession [] "123" (some "dev-1") none
        { digestAvailable := true, digestThrows := false } (.error "x")).1.error.isSome = true ∧
     (pinLogin emptySession [] "123" (some "dev-1") none
        { digestAvailable := true, digestThrows := false } (.error "x")).1.requestsSent = []) ∧
    ((pinLogin emptySession [] "abcdef" (some "dev-1") none
        { digestAvailable := true, digestThrows := false } (.error "x")).1.requestsSent = []) ∧
    ((pinLogin emptySession [] "123456" (some "dev-1") none
        { digestAvailable := true, digestThrows := false } (.error "x")).1.requestsSent
      = [{ deviceId := "dev-1", pin := .sha256 "123456", platform := none }]) :=
  ⟨(c8_pin_shape_gates_network emptySession [] "123" (some "dev-1") none
      { digestAvailable := true, digestThrows := false } (.error "x")).1 (by decide),
   ((c8_pin_shape_gates_network emptySession [] "abcdef" (some "dev-1") none
      { digestAvailable := true, digestThrows := false } (.error "x")).1 (by decide)).2.2,
   (c8_pin_shape_gates_network emptySession [] "123456" (some "dev-1") none
      { digestAvailable := true, digestThrows := false } (.error "x")).2 (by decide)⟩

/-! ## C3: batch reload suppression -/

/-- C3: evaluating `processMessageQueue` on the claim's two batches.
The failure-then-logout batch does drop the logout effect and schedules
no reload, but the batch holding only `{type: loginSuccess,
success: true}` also schedules no reload, whereas the claim requires
exactly one: `shouldSkipRefresh` is hard-coded `true` at
AppWebView.tsx:498, with the intended expression left in a comment. -/
theorem c3_reload_never_scheduled :
    (processMessageQueue
        [{ type := .pinLoginFailure, success := some false, reason := none },
         { type := .logout, success := none, reason := none }]).logoutInvoked = false ∧
    (processMessageQueue
        [{ type := .pinLoginFailure, success := some false, reason := none },
         { type := .logout, success := none, reason := none }]).processed
      = [{ type := .pinLoginFailure, success := some false, reason := none }] ∧
    (processMessageQueue
        [{ type := .pinLoginFailure, success := some false, reason := none },
         { type := .logout, success := none, reason := none }]).reloadScheduled = false ∧
    (processMessageQueue
        [{ type := .loginSuccess, success := some true, reason := none }]).reloadScheduled
      = false := by
  refine ⟨by decide, by decide, by decide, by decide⟩

/-! ## C7: messages arriving during batch processing -/

/-- C7 counterexample: message `2` arrives while the batch `[1]` is
being processed; when the flush completes, the trace holds only `1`
and message `2` is in no component of the queue machinery — it was
silently discarded, not queued into a next batch. -/
theorem c7_counterexample :
    let s := mqEndFlush (mqArrive 2 (mqBeginFlush (mqArrive 1 mqInit)))
    s.processedTrace = [1] ∧ s.messageQueue = [] ∧
    s.scheduledBatch = none ∧ s.drainingBatch = none := by
  decide

theorem mqAbsent_step (m : Nat) (s : MsgQueueState) (e : MQEvent)
    (h : mqAbsent m s) (he : e ≠ .arrive m) : mqAbsent m (mqStep s e) := by
  obtain ⟨h1, h2, h3, h4⟩ := h
  cases e with
  | arrive n =>
    have hnm : n ≠ m := fun hh => he (by rw [hh])
    show mqAbsent m (mqArrive n s)
    unfold mqAbsent mqArrive
    by_cases hp : s.isProcessingQueue = true <;>
      simp [hp, h1, h2, h3, h4, Ne.symm hnm]
  | beginFlush =>
    unfold mqStep mqBeginFlush
    cases hb : s.scheduledBatch with
    | none => exact ⟨h1, h2, h3, h4⟩
    | some b =>
      rw [hb] at h2
      exact ⟨h1, by simp, by simpa using h2, h4⟩
  | endFlush =>
    unfold mqStep mqEndFlush
    cases hb : s.drainingBatch with
    | none => exact ⟨h1, h2, h3, h4⟩
    | some b =>
      rw [hb] at h3
      refine ⟨by simp, h2, by simp, ?_⟩
      simp only [List.mem_append]
      rintro (hc | hc)
      · exact h4 hc
      · exact h3 (by simpa using hc)

theorem mqAbsent_run (m : Nat) (s : MsgQueueState) (evs : List MQEvent)
    (h : mqAbsent m s) (he : ∀ e ∈ evs, e ≠ .arrive m) : mqAbsent m (mqRun s evs) := by
  induction evs generalizing s with
  | nil => exact h
  | cons e evs ih =>
    exact ih (mqStep s e)
      (mqAbsent_step m s e h (he e (List.mem_cons_self _ _)))
      (fun x hx => he x (List.mem_cons_of_mem _ hx))

/-- C7 amended: a message arriving while a coalesced batch is being
processed is appended to the in-memory queue — it is never interleaved
into the draining batch and no flush is scheduled for it — but when
the in-flight flush completes, `setMessageQueue([])` discards it: the
message is absent from every component of the queue machinery ever
after (in particular it is never processed), as long as it does not
arrive again. -/
theorem c7_amended_mid_batch_message_discarded (s : MsgQueueState) (b : List Nat)
    (m : Nat) (evs : List MQEvent)
    (hproc : s.isProcessingQueue = true)
    (hd : s.drainingBatch = some b) (hmb : m ∉ b)
    (hsched : s.scheduledBatch = none)
    (hmt : m ∉ s.processedTrace)
    (hnoarr : ∀ e ∈ evs, e ≠ MQEvent.arrive m) :
    (mqArrive m s).drainingBatch = some b ∧
    (mqArrive m s).scheduledBatch = none ∧
    (mqEndFlush (mqArrive m s)).messageQueue = [] ∧
    mqAbsent m (mqRun (mqEndFlush (mqArrive m s)) evs) := by
  have ha : mqArrive m s = { s with messageQueue := s.messageQueue ++ [m] } := by
    unfold mqArrive
    rw [if_pos hproc]
  have hend : mqEndFlush (mqArrive m s)
      = { s with drainingBatch := none
                 processedTrace := s.processedTrace ++ b
                 messageQueue := [], isProcessingQueue := false } := by
    rw [ha]
    unfold mqEndFlush
    simp only [hd]
  refine ⟨by rw [ha]; exact hd, by rw [ha]; exact hsched, by rw [hend], ?_⟩
  refine mqAbsent_run m _ evs ?_ hnoarr
  rw [hend]
  refine ⟨by simp, by simp [hsched], by simp, ?_⟩
  simp only [List.mem_append]
  rintro (hc | hc)
  · exact hmt hc
  · exact hmb hc

/-- Witness for C7's amended statement at a concrete mid-flush state. -/
theorem c7_amended_witness :
    let s : MsgQueueState :=
      { messageQueue := [1], isProcessingQueue := true
        scheduledBatch := none, drainingBatch := some [1], processedTrace := [] }
    (mqArrive 2 s).drainingBatch = some [1] ∧
    (mqArrive 2 s).scheduledBatch = none ∧
    (mqEndFlush (mqArrive 2 s)).messageQueue = [] ∧
    mqAbsent 2 (mqRun (mqEndFlush (mqArrive 2 s))
      [MQEvent.arrive 3, MQEvent.beginFlush, MQEvent.endFlush]) :=
  c7_amended_mid_batch_message_discarded _ [1] 2 _
    (by decide) (by decide) (by decide) (by decide) (by decide) (by decide)

/-! ## C9: biometric login ordering -/

/-- C9: when the device-login-options lookup reports no registered
passkey credential, `biometricLogin` returns `{success: false, error}`
without invoking the platform biometric prompt; and the server's
biometric-login endpoint appears in the execution trace only after a
successful platform biometric approval. -/
theorem c9_biometric_order (sess : AuthSession) (s : Store) (env : BioEnv) :
    ((∃ opts, env.optionsResult = .ok opts ∧ opts.hasPasskey = false) →
      (biometricLogin sess s env).1.success = false ∧
      (biometricLogin sess s env).1.error.isSome = true ∧
      BioStep.biometricPrompt ∉ (biometricLogin sess s env).1.trace) ∧
    (BioStep.serverBiometricLogin ∈ (biometricLogin sess s env).1.trace →
      env.promptSucceeds = true ∧
      (biometricLogin sess s env).1.trace
        = [BioStep.optionsLookup, BioStep.biometricPrompt, BioStep.serverBiometricLogin]) := by
  obtain ⟨optr, prompt, srv⟩ := env
  constructor
  · rintro ⟨opts, hopt, hnp⟩
    simp only at hopt
    subst hopt
    simp [biometricLogin, hnp]
  · intro hmem
    cases optr with
    | error e => simp [biometricLogin] at hmem
    | ok opts =>
      cases hp : opts.hasPasskey with
      | false => simp [biometricLogin, hp] at hmem
      | true =>
        cases hpr : prompt with
        | false => simp [biometricLogin, hp, hpr] at hmem
        | true =>
          cases srv with
          | error e => exact ⟨rfl, by simp [biometricLogin, hp, hpr]⟩
          | ok data => exact ⟨rfl, by simp [biometricLogin, hp, hpr]⟩

/-- Witness for C9: a device with no registered passkey fails fast
without a prompt; a full successful run calls the server only after
the prompt. -/
theorem c9_witness :
    let env : BioEnv := { optionsResult := .ok { hasPin := true, hasPasskey := false }
                          promptSucceeds := true, serverResponse := .error "x" }
    (biometricLogin emptySession [] env).1.success = false ∧
    (biometricLogin emptySession [] env).1.error.isSome = true ∧
    BioStep.biometricPrompt ∉ (biometricLogin emptySession [] env).1.trace :=
  (c9_biometric_order emptySession []
      { optionsResult := .ok { hasPin := true, hasPasskey := false }
        promptSucceeds := true, serverResponse := .error "x" }).1
    ⟨{ hasPin := true, hasPasskey := false }, rfl, rfl⟩

end MyWork
